import Mathlib

/-!
Verification of the alarm evaluation and triggering engine of the WakeUpAI
repository (file src/alarm/alarm.py), as a shallow embedding in Lean.

Modelling conventions:
- Wall-clock instants (Python datetime values) are modelled by their epoch
  value in whole seconds as a natural number; hour, minute and weekday are
  derived from the epoch by the usual floor arithmetic (1970-01-01 was a
  Thursday, weekday 3 with Monday = 0).  Snooze deadlines
  (snooze_until_timestamp, a float in the source) are modelled at second
  granularity as natural numbers.
- Python dicts keyed by alarm id become insertion-ordered association
  lists; dictSet updates in place, dictDel removes the key.  Python sets
  become duplicate-free lists with setAdd and setDiscard.
- Python truthiness matters in two places of the source and is embedded
  faithfully: the property snooze_until_datetime yields None when the
  stored timestamp is None or 0 (since the float 0.0 is falsy), and the
  constructor replaces a falsy alarm_id (None or the empty string) by a
  generated one; the generated id (str(time.time()) in the source) is
  passed in as an explicit gen_id argument.
- Logging has no effect on state and is dropped, except where an operation
  signals failure only through a warning: there the operation returns an
  extra Bool recording whether it acted.
- The JSON file behind AlarmManager is modelled by a FileState value kept
  in the manager record; save_alarms overwrites it, and loading consumes
  one.
-/

namespace WakeUpAI

/-- A Python datetime.time value: hour, minute, second. -/
structure Time where
  hour : Nat
  minute : Nat
  second : Nat
deriving DecidableEq, Repr

/-- A Python datetime.datetime value, reduced to its epoch second count. -/
structure DateTime where
  epoch : Nat
deriving DecidableEq, Repr

/-- Hour of the day of a datetime (datetime.hour in the source). -/
def DateTime.hour (d : DateTime) : Nat := d.epoch % 86400 / 3600

/-- Minute within the hour of a datetime (datetime.minute in the source). -/
def DateTime.minute (d : DateTime) : Nat := d.epoch % 3600 / 60

/-- Weekday of a datetime, Monday = 0 (datetime.weekday() in the source). -/
def DateTime.weekday (d : DateTime) : Nat := (d.epoch / 86400 + 3) % 7

/-- Lookup in an insertion-ordered dict (Python d.get(k) / d[k]). -/
def dictGet {α : Type} (d : List (String × α)) (k : String) : Option α :=
  match d with
  | [] => none
  | (k1, v) :: rest => if k1 = k then some v else dictGet rest k

/-- Assignment d[k] = v on an insertion-ordered dict: update in place if the
key is present, append otherwise. -/
def dictSet {α : Type} (d : List (String × α)) (k : String) (v : α) :
    List (String × α) :=
  match d with
  | [] => [(k, v)]
  | (k1, v1) :: rest =>
      if k1 = k then (k, v) :: rest else (k1, v1) :: dictSet rest k v

/-- Deletion del d[k] on an insertion-ordered dict. -/
def dictDel {α : Type} (d : List (String × α)) (k : String) :
    List (String × α) :=
  match d with
  | [] => []
  | (k1, v1) :: rest =>
      if k1 = k then rest else (k1, v1) :: dictDel rest k

/-- Python set.add on a duplicate-free list. -/
def setAdd (s : List String) (x : String) : List String :=
  if x ∈ s then s else s ++ [x]

/-- Python set.discard on a duplicate-free list. -/
def setDiscard (s : List String) (x : String) : List String :=
  match s with
  | [] => []
  | y :: rest => if y = x then setDiscard rest x else y :: setDiscard rest x

/-- Insert a number into an ascending list, keeping it ascending. -/
def insertSorted (n : Nat) : List Nat → List Nat
  | [] => [n]
  | m :: rest => if n ≤ m then n :: m :: rest else m :: insertSorted n rest

/-- Ascending sort of a list of numbers. -/
def sortNat (l : List Nat) : List Nat := l.foldr insertSorted []

/-- The constructor normalisation sorted(list(set(repeat_days))) if
repeat_days else [] of the source: an empty (falsy) argument yields the
empty list, otherwise the distinct values in ascending order. -/
def canonDays (l : List Nat) : List Nat :=
  if l.isEmpty then [] else sortNat l.dedup

/-- The Alarm entity of the source (class Alarm), with the fields set by
its constructor. -/
structure Alarm where
  alarm_id : String
  alarm_time : Time
  label : String
  repeat_days : List Nat
  enabled : Bool
  is_snoozing : Bool
  snooze_until_timestamp : Option Nat
  feed_type : String
  feed_options : List (String × String)
deriving DecidableEq, Repr

/-- The Alarm constructor (Alarm.__init__).  gen_id stands for the
generated id str(time.time()) used when the supplied alarm_id is falsy
(None or the empty string). -/
def Alarm.make (gen_id : String) (alarm_time : Time) (label : String)
    (repeat_days : List Nat) (enabled : Bool) (alarm_id : Option String)
    (feed_type : String) (feed_options : List (String × String)) : Alarm :=
  { alarm_id :=
      match alarm_id with
      | some s => if s = "" then gen_id else s
      | none => gen_id
    alarm_time := alarm_time
    label := label
    repeat_days := canonDays repeat_days
    enabled := enabled
    is_snoozing := false
    snooze_until_timestamp := none
    feed_type := feed_type
    feed_options := feed_options }

/-- The snooze_until_datetime property of the source: it tests the raw
timestamp for truthiness, so both None and the timestamp 0 (the falsy
float 0.0) yield None. -/
def Alarm.snooze_until_datetime (a : Alarm) : Option Nat :=
  match a.snooze_until_timestamp with
  | some t => if t = 0 then none else some t
  | none => none

/-- Alarm.enable: enable and reset any snooze state. -/
def Alarm.enable (a : Alarm) : Alarm :=
  { a with enabled := true, is_snoozing := false, snooze_until_timestamp := none }

/-- Alarm.disable: disable and reset any snooze state. -/
def Alarm.disable (a : Alarm) : Alarm :=
  { a with enabled := false, is_snoozing := false, snooze_until_timestamp := none }

/-- Alarm.snooze(minutes), taken at instant now.  The returned Bool records
whether the snooze was applied; the source signals the disabled case only
by logging a warning and leaves the alarm untouched. -/
def Alarm.snooze (now : Nat) (minutes : Nat) (a : Alarm) : Alarm × Bool :=
  if a.enabled then
    ({ a with is_snoozing := true,
              snooze_until_timestamp := some (now + minutes * 60) }, true)
  else (a, false)

/-- Alarm.should_trigger(current_datetime).  It returns the boolean of the
source together with the (possibly mutated) alarm: the one mutating case
clears an expired snooze.  The snooze comparison goes through the
snooze_until_datetime property, so a stored timestamp of 0 acts as absent. -/
def Alarm.should_trigger (a : Alarm) (now : DateTime) : Bool × Alarm :=
  if a.enabled = false then (false, a)
  else if a.is_snoozing then
    match a.snooze_until_datetime with
    | some t =>
        if t ≤ now.epoch then
          (true, { a with is_snoozing := false, snooze_until_timestamp := none })
        else (false, a)
    | none => (false, a)
  else if now.hour = a.alarm_time.hour ∧ now.minute = a.alarm_time.minute then
    if a.repeat_days.isEmpty then (true, a)
    else if now.weekday ∈ a.repeat_days then (true, a)
    else (false, a)
  else (false, a)

/-- Numeric value of a decimal digit character, if it is one. -/
def digitVal (c : Char) : Option Nat :=
  if c.isDigit then some (c.toNat - 48) else none

/-- Parse a field of one or two decimal digits, as the strptime directives
%H, %M, %S accept. -/
def parseNat2 : List Char → Option Nat
  | [c] => digitVal c
  | [c1, c2] =>
      match digitVal c1, digitVal c2 with
      | some d1, some d2 => some (d1 * 10 + d2)
      | _, _ => none
  | _ => none

/-- Split a character list at every occurrence of a separator. -/
def splitOnChar (sep : Char) : List Char → List (List Char)
  | [] => [[]]
  | c :: rest =>
      if c = sep then [] :: splitOnChar sep rest
      else
        match splitOnChar sep rest with
        | [] => [[c]]
        | g :: gs => (c :: g) :: gs

/-- datetime.strptime(s, "%H:%M:%S").time() of the source: three colon
separated fields of one or two digits; the resulting datetime.time demands
hour below 24 and minute and second below 60, anything else raises and is
modelled by none. -/
def parseHMS (s : String) : Option Time :=
  match splitOnChar ':' s.data with
  | [hs, ms, ss] =>
      match parseNat2 hs, parseNat2 ms, parseNat2 ss with
      | some h, some m, some s2 =>
          if h ≤ 23 ∧ m ≤ 59 ∧ s2 ≤ 59 then some ⟨h, m, s2⟩ else none
      | _, _, _ => none
  | _ => none

/-- Two-digit zero-padded rendering of a field value below 100. -/
def twoDigitsL (n : Nat) : List Char :=
  [Char.ofNat (48 + n / 10), Char.ofNat (48 + n % 10)]

/-- alarm_time.strftime("%H:%M:%S") of the source. -/
def formatHMS (t : Time) : String :=
  String.mk (twoDigitsL t.hour ++
    (':' :: (twoDigitsL t.minute ++ (':' :: twoDigitsL t.second))))

/-- One JSON object of the persisted alarms array.  A missing key is none;
for snooze_until_timestamp a persisted null is likewise none, exactly as
dict.get treats it in the source. -/
structure RawRecord where
  alarm_id : Option String
  alarm_time : Option String
  label : Option String
  repeat_days : Option (List Nat)
  enabled : Option Bool
  is_snoozing : Option Bool
  snooze_until_timestamp : Option Nat
  feed_type : Option String
  feed_options : Option (List (String × String))
deriving DecidableEq, Repr

/-- Alarm.to_dict of the source. -/
def Alarm.to_dict (a : Alarm) : RawRecord :=
  { alarm_id := some a.alarm_id
    alarm_time := some (formatHMS a.alarm_time)
    label := some a.label
    repeat_days := some a.repeat_days
    enabled := some a.enabled
    is_snoozing := some a.is_snoozing
    snooze_until_timestamp := a.snooze_until_timestamp
    feed_type := some a.feed_type
    feed_options := some a.feed_options }

/-- The stale-snooze reset shared by Alarm.from_dict (lines 147-152) and
the tail of AlarmManager.load_alarms (lines 309-317): when the alarm is
flagged snoozing and its deadline, read through the truthy
snooze_until_datetime property, lies strictly in the past, the snooze
state is cleared. -/
def resnooze (now : Nat) (a : Alarm) : Alarm :=
  match a.snooze_until_datetime with
  | some t =>
      if a.is_snoozing ∧ t < now then
        { a with is_snoozing := false, snooze_until_timestamp := none }
      else a
  | none => a

/-- Alarm.from_dict of the source, evaluated at instant now.  Any missing
required key or unparseable time string raises in the source and is
modelled by none; gen_id is the generated id used for a falsy persisted
alarm_id. -/
def Alarm.from_dict (now : Nat) (gen_id : String) (r : RawRecord) : Option Alarm := do
  let ts ← r.alarm_time
  let t ← parseHMS ts
  let label ← r.label
  let days ← r.repeat_days
  let en ← r.enabled
  let id ← r.alarm_id
  let a0 := Alarm.make gen_id t label days en (some id)
      (r.feed_type.getD "daily_news") (r.feed_options.getD [])
  let a1 := { a0 with is_snoozing := r.is_snoozing.getD false,
                      snooze_until_timestamp := r.snooze_until_timestamp }
  return resnooze now a1

/-- The durable file behind an AlarmManager: absent, unreadable or
syntactically broken, or a parsed array of records. -/
inductive FileState where
  | missing
  | malformed
  | contents (records : List RawRecord)
deriving DecidableEq, Repr

/-- Outcome of AlarmManager.load_alarms: the loaded collection, whether a
whole-file read or parse error was reported, and how many individual
records were skipped with a reported error. -/
structure LoadResult where
  alarms : List (String × Alarm)
  file_error : Bool
  record_errors : Nat
deriving DecidableEq, Repr

/-- The per-record loop of load_alarms: parse each record, skipping and
counting the ones that raise, inserting the rest keyed by alarm_id. -/
def loadRecordsGo (now : Nat) (gen_id : String) :
    List RawRecord → List (String × Alarm) → List (String × Alarm) × Nat
  | [], acc => (acc, 0)
  | r :: rest, acc =>
      match Alarm.from_dict now gen_id r with
      | some a => loadRecordsGo now gen_id rest (dictSet acc a.alarm_id a)
      | none =>
          let res := loadRecordsGo now gen_id rest acc
          (res.1, res.2 + 1)

/-- The pass at the end of load_alarms that re-evaluates snooze states that
might have passed while the process was down. -/
def stalePass (now : Nat) (d : List (String × Alarm)) : List (String × Alarm) :=
  d.map (fun e => (e.1, resnooze now e.2))

/-- AlarmManager.load_alarms at construction time (the collection starts
empty): a missing file yields no alarms and no error, an unreadable or
malformed file yields no alarms plus a reported error, and otherwise the
records load individually with per-record failures skipped. -/
def AlarmManager.load_alarms (now : Nat) (gen_id : String) :
    FileState → LoadResult
  | .missing => ⟨[], false, 0⟩
  | .malformed => ⟨[], true, 0⟩
  | .contents recs =>
      let res := loadRecordsGo now gen_id recs []
      ⟨stalePass now res.1, false, res.2⟩

/-- The AlarmManager state: the alarm dict, the ephemeral last-triggered
cache, the set of actively sounding alarm ids, and the JSON file at
alarms_file. -/
structure AlarmManager where
  alarms : List (String × Alarm)
  last_triggered_minute : List (String × (Nat × Nat))
  actively_sounding_alarm_ids : List String
  stored : FileState
deriving DecidableEq, Repr

/-- AlarmManager.save_alarms: serialize every alarm and overwrite the file. -/
def AlarmManager.save_alarms (m : AlarmManager) : AlarmManager :=
  { m with stored := FileState.contents (m.alarms.map (fun e => e.2.to_dict)) }

/-- AlarmManager.add_alarm_obj: refuse a duplicate id, otherwise insert and
save. -/
def AlarmManager.add_alarm_obj (m : AlarmManager) (a : Alarm) :
    Option Alarm × AlarmManager :=
  if (dictGet m.alarms a.alarm_id).isSome then (none, m)
  else (some a, AlarmManager.save_alarms
      { m with alarms := dictSet m.alarms a.alarm_id a })

/-- AlarmManager.create_alarm: construct and add. -/
def AlarmManager.create_alarm (m : AlarmManager) (gen_id : String)
    (alarm_time : Time) (label : String) (repeat_days : List Nat)
    (enabled : Bool) (alarm_id : Option String) (feed_type : String)
    (feed_options : List (String × String)) : Option Alarm × AlarmManager :=
  m.add_alarm_obj (Alarm.make gen_id alarm_time label repeat_days enabled
    alarm_id feed_type feed_options)

/-- AlarmManager.remove_alarm: delete the alarm and its last-triggered
cache entry and save; unknown ids only get a warning.  The actively
sounding set is not touched. -/
def AlarmManager.remove_alarm (m : AlarmManager) (id : String) : AlarmManager :=
  if (dictGet m.alarms id).isSome then
    AlarmManager.save_alarms
      { m with alarms := dictDel m.alarms id,
               last_triggered_minute :=
                 if (dictGet m.last_triggered_minute id).isSome then
                   dictDel m.last_triggered_minute id
                 else m.last_triggered_minute }
  else m

/-- The optional fields of Alarm.update. -/
structure AlarmUpdate where
  alarm_time : Option Time
  label : Option String
  repeat_days : Option (List Nat)
  enabled : Option Bool
  feed_type : Option String
  feed_options : Option (List (String × String))
deriving DecidableEq, Repr

/-- Alarm.update: only supplied fields change; disabling also cancels any
snooze. -/
def Alarm.update (a : Alarm) (u : AlarmUpdate) : Alarm :=
  let a1 := match u.alarm_time with
    | some t => { a with alarm_time := t }
    | none => a
  let a2 := match u.label with
    | some s => { a1 with label := s }
    | none => a1
  let a3 := match u.repeat_days with
    | some ds => { a2 with repeat_days := canonDays ds }
    | none => a2
  let a4 := match u.enabled with
    | some e =>
        if e then { a3 with enabled := e }
        else { a3 with enabled := e, is_snoozing := false,
                       snooze_until_timestamp := none }
    | none => a3
  let a5 := match u.feed_type with
    | some f => { a4 with feed_type := f }
    | none => a4
  match u.feed_options with
  | some o => { a5 with feed_options := o }
  | none => a5

/-- AlarmManager.update_alarm: update an existing alarm and save. -/
def AlarmManager.update_alarm (m : AlarmManager) (id : String)
    (u : AlarmUpdate) : Option Alarm × AlarmManager :=
  match dictGet m.alarms id with
  | some a =>
      let a1 := a.update u
      (some a1, AlarmManager.save_alarms
        { m with alarms := dictSet m.alarms id a1 })
  | none => (none, m)

/-- AlarmManager.enable_alarm. -/
def AlarmManager.enable_alarm (m : AlarmManager) (id : String) : AlarmManager :=
  match dictGet m.alarms id with
  | some a => AlarmManager.save_alarms
      { m with alarms := dictSet m.alarms id a.enable }
  | none => m

/-- AlarmManager.disable_alarm. -/
def AlarmManager.disable_alarm (m : AlarmManager) (id : String) : AlarmManager :=
  match dictGet m.alarms id with
  | some a => AlarmManager.save_alarms
      { m with alarms := dictSet m.alarms id a.disable }
  | none => m

/-- AlarmManager.snooze_alarm at instant now: snooze only an existing,
enabled alarm and save; otherwise only a warning is logged, recorded by
the returned Bool. -/
def AlarmManager.snooze_alarm (m : AlarmManager) (id : String) (now : Nat)
    (minutes : Nat) : Bool × AlarmManager :=
  match dictGet m.alarms id with
  | some a =>
      if a.enabled then
        (true, AlarmManager.save_alarms
          { m with alarms := dictSet m.alarms id (a.snooze now minutes).1 })
      else (false, m)
  | none => (false, m)

/-- AlarmManager.mark_alarm_processing_complete: drop the id from the
actively sounding set. -/
def AlarmManager.mark_alarm_processing_complete (m : AlarmManager)
    (id : String) : AlarmManager :=
  { m with actively_sounding_alarm_ids :=
      setDiscard m.actively_sounding_alarm_ids id }

/-- The loop of request_snooze_for_active_alarms over a snapshot of the
actively sounding ids: snooze the ids that resolve to an enabled alarm,
skip the disabled ones, and discard the ids that no longer resolve. -/
def requestSnoozeGo (now : Nat) (minutes : Nat) :
    List String → AlarmManager → List String → List String × AlarmManager
  | [], m, acc => (acc, m)
  | id :: rest, m, acc =>
      match dictGet m.alarms id with
      | some a =>
          if a.enabled then
            requestSnoozeGo now minutes rest (m.snooze_alarm id now minutes).2
              (acc ++ [a.label])
          else requestSnoozeGo now minutes rest m acc
      | none =>
          requestSnoozeGo now minutes rest
            { m with actively_sounding_alarm_ids :=
                setDiscard m.actively_sounding_alarm_ids id } acc

/-- AlarmManager.request_snooze_for_active_alarms at instant now: returns
the labels of the alarms snoozed. -/
def AlarmManager.request_snooze_for_active_alarms (m : AlarmManager)
    (now : Nat) (minutes : Nat) : List String × AlarmManager :=
  requestSnoozeGo now minutes m.actively_sounding_alarm_ids m []

/-- The (hour, minute) key current_time_minute_tuple of a scan. -/
def cacheKey (now : DateTime) : Nat × Nat := (now.hour, now.minute)

/-- The evolving state of one pass of check_and_trigger_alarms: the
processed entries, the last-triggered cache, the actively sounding set and
the list of alarms returned so far. -/
structure ScanState where
  done : List (String × Alarm)
  cache : List (String × (Nat × Nat))
  active : List String
  triggered : List Alarm
deriving DecidableEq, Repr

/-- One iteration of the loop of check_and_trigger_alarms (lines 375-397):
should_trigger is called first and its mutation of the alarm persists in
every branch; a firing alarm is skipped when it is not snoozing after that
call and the cache already holds the current minute; otherwise it is added
to the actively sounding set, returned, and cached, and the one-time
disable runs only under the (always false once the id was just added)
condition that the id of the alarm is not in the actively sounding set. -/
def scanEntry (now : DateTime) (key : Nat × Nat) (st : ScanState)
    (e : String × Alarm) : ScanState :=
  let res := e.2.should_trigger now
  if res.1 then
    if res.2.is_snoozing = false ∧ dictGet st.cache e.1 = some key then
      { st with done := st.done ++ [(e.1, res.2)] }
    else
      let active1 := setAdd st.active e.1
      let a2 :=
        if res.2.repeat_days.isEmpty ∧ res.2.alarm_id ∉ active1 ∧
            res.2.is_snoozing = false then
          res.2.disable
        else res.2
      { done := st.done ++ [(e.1, a2)]
        cache := dictSet st.cache e.1 key
        active := active1
        triggered := st.triggered ++ [a2] }
  else
    let cache1 :=
      match dictGet st.cache e.1 with
      | some k => if k ≠ key then dictDel st.cache e.1 else st.cache
      | none => st.cache
    { st with done := st.done ++ [(e.1, res.2)], cache := cache1 }

/-- AlarmManager.check_and_trigger_alarms at instant now: the central
trigger scan.  It never saves to the file. -/
def AlarmManager.check_and_trigger_alarms (m : AlarmManager) (now : DateTime) :
    List Alarm × AlarmManager :=
  let key := cacheKey now
  let st := m.alarms.foldl (scanEntry now key)
    ⟨[], m.last_triggered_minute, m.actively_sounding_alarm_ids, []⟩
  (st.triggered,
   { m with alarms := st.done,
            last_triggered_minute := st.cache,
            actively_sounding_alarm_ids := st.active })

/-! Basic lemmas about the dict and set helpers. -/

theorem dictGet_dictSet_self {α : Type} (d : List (String × α)) (k : String)
    (v : α) : dictGet (dictSet d k v) k = some v := by
  induction d with
  | nil => simp [dictSet, dictGet]
  | cons e rest ih =>
      obtain ⟨k1, v1⟩ := e
      by_cases h : k1 = k
      · simp [dictSet, dictGet, h]
      · simp [dictSet, dictGet, h, ih]

theorem dictGet_dictSet_ne {α : Type} (d : List (String × α)) (k j : String)
    (v : α) (h : k ≠ j) : dictGet (dictSet d k v) j = dictGet d j := by
  induction d with
  | nil => simp [dictSet, dictGet, h]
  | cons e rest ih =>
      obtain ⟨k1, v1⟩ := e
      by_cases h1 : k1 = k
      · subst h1
        simp [dictSet, dictGet, h]
      · simp [dictSet, dictGet, h1, ih]

theorem dictGet_dictDel_ne {α : Type} (d : List (String × α)) (k j : String)
    (h : k ≠ j) : dictGet (dictDel d k) j = dictGet d j := by
  induction d with
  | nil => simp [dictDel, dictGet]
  | cons e rest ih =>
      obtain ⟨k1, v1⟩ := e
      by_cases h1 : k1 = k
      · subst h1
        simp [dictDel, dictGet, h, ih]
      · simp [dictDel, dictGet, h1, ih]

theorem dictGet_append {α : Type} (d1 d2 : List (String × α)) (k : String) :
    dictGet (d1 ++ d2) k = ((dictGet d1 k).orElse (fun _ => dictGet d2 k)) := by
  induction d1 with
  | nil => simp [dictGet]
  | cons e rest ih =>
      obtain ⟨k1, v1⟩ := e
      by_cases h : k1 = k
      · simp [dictGet, h]
      · simp [dictGet, h, ih]

theorem mem_setAdd (s : List String) (x y : String) :
    y ∈ setAdd s x ↔ y ∈ s ∨ y = x := by
  by_cases h : x ∈ s
  · simp only [setAdd, if_pos h]
    constructor
    · exact fun hy => Or.inl hy
    · rintro (hy | rfl)
      · exact hy
      · exact h
  · simp [setAdd, if_neg h]

theorem not_mem_setDiscard (s : List String) (x : String) :
    x ∉ setDiscard s x := by
  induction s with
  | nil => simp [setDiscard]
  | cons y rest ih =>
      by_cases h : y = x
      · simpa [setDiscard, h] using ih
      · simp [setDiscard, h, ih]
        exact fun hx => h hx.symm

theorem mem_setDiscard_ne (s : List String) (x y : String) (h : y ≠ x) :
    y ∈ setDiscard s x ↔ y ∈ s := by
  induction s with
  | nil => simp [setDiscard]
  | cons z rest ih =>
      by_cases hz : z = x
      · subst hz
        simp [setDiscard, ih]
        exact fun hyz => absurd hyz h
      · simp [setDiscard, hz, ih]

/-! Basic lemmas about should_trigger. -/

/-- Whenever should_trigger answers true, the alarm it hands back is no
longer snoozing: the snooze branch clears the flag and the clock branch is
only reached with the flag already clear.  In the scan this makes the
guard not alarm.is_snoozing of the de-duplication test always true. -/
theorem should_trigger_true_not_snoozing (a : Alarm) (now : DateTime)
    (h : (a.should_trigger now).1 = true) :
    (a.should_trigger now).2.is_snoozing = false := by
  unfold Alarm.should_trigger at *
  by_cases he : a.enabled = false
  · simp [he] at h
  · by_cases hs : a.is_snoozing
    · rcases hd : a.snooze_until_datetime with - | t
      · simp [he, hs, hd] at h
      · by_cases hle : t ≤ now.epoch
        · simp [he, hs, hd, hle]
        · simp [he, hs, hd, hle] at h
    · have hs2 : a.is_snoozing = false := by simpa using hs
      by_cases hc : now.hour = a.alarm_time.hour ∧ now.minute = a.alarm_time.minute
      · by_cases hre : a.repeat_days.isEmpty
        · simp [he, hs, hc, hre, hs2]
        · by_cases hw : now.weekday ∈ a.repeat_days
          · simp [he, hs, hc, hre, hw, hs2]
          · simp [he, hs, hc, hre, hw] at h
      · simp [he, hs, hc] at h

/-- should_trigger never changes the id of the alarm. -/
theorem should_trigger_alarm_id (a : Alarm) (now : DateTime) :
    (a.should_trigger now).2.alarm_id = a.alarm_id := by
  unfold Alarm.should_trigger
  by_cases he : a.enabled = false
  · simp [he]
  · by_cases hs : a.is_snoozing
    · rcases hd : a.snooze_until_datetime with - | t
      · simp [he, hs, hd]
      · by_cases hle : t ≤ now.epoch
        · simp [he, hs, hd, hle]
        · simp [he, hs, hd, hle]
    · by_cases hc : now.hour = a.alarm_time.hour ∧ now.minute = a.alarm_time.minute
      · by_cases hre : a.repeat_days.isEmpty
        · simp [he, hs, hc, hre]
        · by_cases hw : now.weekday ∈ a.repeat_days
          · simp [he, hs, hc, hre, hw]
          · simp [he, hs, hc, hre, hw]
      · simp [he, hs, hc]

/-! Claim C1. -/

/-- The enabled one-time 07:00 alarm of scenario A of the claims. -/
def c1Alarm : Alarm :=
  { alarm_id := "a", alarm_time := ⟨7, 0, 0⟩, label := "wake",
    repeat_days := [], enabled := true, is_snoozing := false,
    snooze_until_timestamp := none, feed_type := "daily_news",
    feed_options := [] }

/-- A manager holding only that alarm. -/
def c1Mgr : AlarmManager :=
  { alarms := [("a", c1Alarm)], last_triggered_minute := [],
    actively_sounding_alarm_ids := [], stored := FileState.missing }

/-- C1: evaluation of the code at the failing input.  A scan at 07:00:00
(epoch 25200) returns the enabled one-time alarm, but afterwards the
alarm is still enabled: the one-time disable of the source (line 391)
tests that the id of the alarm is not in the actively sounding set right
after that very id was added to it (line 385), so the disable never runs.
The follow-up scan in the same minute is empty only because of the
last-triggered cache. -/
theorem C1_code_eval :
    (c1Mgr.check_and_trigger_alarms ⟨25200⟩).1 = [c1Alarm] ∧
    dictGet (c1Mgr.check_and_trigger_alarms ⟨25200⟩).2.alarms "a" =
      some c1Alarm ∧
    c1Alarm.enabled = true ∧ c1Alarm.repeat_days = [] ∧
    ((c1Mgr.check_and_trigger_alarms ⟨25200⟩).2.check_and_trigger_alarms
      ⟨25230⟩).1 = [] := by decide

/-! Claim C2. -/

/-- A snoozing enabled alarm whose stored snooze deadline is the timestamp
0, which the snooze_until_datetime property treats as absent because the
float 0.0 is falsy. -/
def c2Alarm : Alarm :=
  { alarm_id := "a", alarm_time := ⟨7, 0, 0⟩, label := "wake",
    repeat_days := [], enabled := true, is_snoozing := true,
    snooze_until_timestamp := some 0, feed_type := "daily_news",
    feed_options := [] }

/-- C2 counterexample: a snoozing enabled alarm with snooze deadline 0 and
now at epoch 25205, so now is at or past the deadline; the claim demands
that should_trigger return true and clear the snooze state, but the call
returns false and leaves the alarm unchanged, because the
snooze_until_datetime property treats the falsy timestamp 0 as absent. -/
theorem C2_counterexample :
    c2Alarm.enabled = true ∧ c2Alarm.is_snoozing = true ∧
    c2Alarm.snooze_until_timestamp = some 0 ∧
    (0 : Nat) ≤ (DateTime.mk 25205).epoch ∧
    c2Alarm.should_trigger ⟨25205⟩ = (false, c2Alarm) := by decide

/-- C2 (amended): full characterisation of should_trigger.  Disabled
alarms never trigger.  A snoozing alarm with a set, nonzero deadline
triggers and clears its snooze state exactly when now has reached the
deadline; a snoozing alarm whose deadline is absent or stored as the falsy
timestamp 0 returns false with state unchanged even when now is past it.
An enabled, non-snoozing alarm triggers exactly on a clock match of hour
and minute with the weekday condition, ignoring seconds. -/
theorem C2_should_trigger_spec (a : Alarm) (now : DateTime) :
    (a.enabled = false → a.should_trigger now = (false, a)) ∧
    (a.enabled = true → a.is_snoozing = true →
      ∀ t, a.snooze_until_timestamp = some t → t ≠ 0 →
        (t ≤ now.epoch →
          a.should_trigger now =
            (true, { a with is_snoozing := false,
                            snooze_until_timestamp := none })) ∧
        (now.epoch < t → a.should_trigger now = (false, a))) ∧
    (a.enabled = true → a.is_snoozing = true →
      (a.snooze_until_timestamp = none ∨ a.snooze_until_timestamp = some 0) →
      a.should_trigger now = (false, a)) ∧
    (a.enabled = true → a.is_snoozing = false →
      a.should_trigger now =
        (if (now.hour = a.alarm_time.hour ∧ now.minute = a.alarm_time.minute) ∧
            (a.repeat_days = [] ∨ now.weekday ∈ a.repeat_days)
          then (true, a) else (false, a))) := by
  refine ⟨?_, ?_, ?_, ?_⟩
  · intro h
    simp [Alarm.should_trigger, h]
  · intro h1 h2 t ht htne
    have hd : a.snooze_until_datetime = some t := by
      simp [Alarm.snooze_until_datetime, ht, htne]
    constructor
    · intro hle
      simp [Alarm.should_trigger, h1, h2, hd, hle]
    · intro hlt
      have hnle : ¬ t ≤ now.epoch := by omega
      simp [Alarm.should_trigger, h1, h2, hd, hnle]
  · intro h1 h2 h3
    have hd : a.snooze_until_datetime = none := by
      rcases h3 with h3 | h3 <;> simp [Alarm.snooze_until_datetime, h3]
    simp [Alarm.should_trigger, h1, h2, hd]
  · intro h1 h2
    by_cases hc : now.hour = a.alarm_time.hour ∧ now.minute = a.alarm_time.minute
    · by_cases he : a.repeat_days = []
      · simp [Alarm.should_trigger, h1, h2, hc, he]
      · by_cases hw : now.weekday ∈ a.repeat_days
        · simp [Alarm.should_trigger, h1, h2, hc, he, hw,
            List.isEmpty_iff]
        · simp [Alarm.should_trigger, h1, h2, hc, he, hw,
            List.isEmpty_iff]
    · have hno : ¬ ((now.hour = a.alarm_time.hour ∧
          now.minute = a.alarm_time.minute) ∧
          (a.repeat_days = [] ∨ now.weekday ∈ a.repeat_days)) :=
        fun h => hc h.1
      rw [if_neg hno]
      simp [Alarm.should_trigger, h1, h2, hc]

/-- An enabled snoozing alarm with deadline 100 used to instantiate the
C2 theorem. -/
def c2wAlarm : Alarm :=
  { alarm_id := "b", alarm_time := ⟨6, 30, 0⟩, label := "wake",
    repeat_days := [], enabled := true, is_snoozing := true,
    snooze_until_timestamp := some 100, feed_type := "daily_news",
    feed_options := [] }

/-- C2 witness: the characterisation applied to a snoozing alarm with
deadline 100 queried at epoch 250. -/
theorem C2_witness :
    c2wAlarm.should_trigger ⟨250⟩ =
      (true, { c2wAlarm with is_snoozing := false,
                             snooze_until_timestamp := none }) :=
  ((C2_should_trigger_spec c2wAlarm ⟨250⟩).2.1 rfl rfl 100 rfl
    (by decide)).1 (by decide)

/-! Claim C7. -/

/-- C7: snoozing an enabled alarm at instant now for a duration of the
given minutes sets the deadline to now plus the duration and enters the
snoozing state; snoozing a disabled alarm, directly or through the
manager, reports failure (the false flag, a logged warning in the source)
and changes nothing. -/
theorem C7_snooze_spec (a : Alarm) (now minutes : Nat) (m : AlarmManager)
    (id : String) :
    (a.enabled = true →
      a.snooze now minutes =
        ({ a with is_snoozing := true,
                  snooze_until_timestamp := some (now + minutes * 60) },
         true)) ∧
    (a.enabled = false → a.snooze now minutes = (a, false)) ∧
    (dictGet m.alarms id = some a → a.enabled = false →
      m.snooze_alarm id now minutes = (false, m)) := by
  refine ⟨?_, ?_, ?_⟩
  · intro h
    simp [Alarm.snooze, h]
  · intro h
    simp [Alarm.snooze, h]
  · intro hg h
    simp [AlarmManager.snooze_alarm, hg, h]

/-- A disabled alarm used to instantiate the C7 theorem. -/
def c7Alarm : Alarm :=
  { alarm_id := "d", alarm_time := ⟨8, 0, 0⟩, label := "off",
    repeat_days := [], enabled := false, is_snoozing := false,
    snooze_until_timestamp := none, feed_type := "daily_news",
    feed_options := [] }

/-- A manager holding the disabled alarm. -/
def c7Mgr : AlarmManager :=
  { alarms := [("d", c7Alarm)], last_triggered_minute := [],
    actively_sounding_alarm_ids := [], stored := FileState.missing }

/-- C7 witness: snoozing the disabled alarm directly and through the
manager reports failure and changes nothing, and snoozing it once enabled
sets the deadline 540 seconds ahead. -/
theorem C7_witness :
    c7Alarm.snooze 1000 9 = (c7Alarm, false) ∧
    c7Mgr.snooze_alarm "d" 1000 9 = (false, c7Mgr) ∧
    c7Alarm.enable.snooze 1000 9 =
      ({ c7Alarm.enable with is_snoozing := true,
                             snooze_until_timestamp := some 1540 }, true) := by
  have h := C7_snooze_spec c7Alarm 1000 9 c7Mgr "d"
  have h2 := C7_snooze_spec c7Alarm.enable 1000 9 c7Mgr "d"
  exact ⟨h.2.1 (by decide), h.2.2 (by decide) (by decide),
    h2.1 (by decide)⟩

/-! Claim C4. -/

/-- A manager with one enabled 07:00 alarm, for the C4 scenario. -/
def c4Mgr0 : AlarmManager :=
  { alarms := [("a", c1Alarm)], last_triggered_minute := [],
    actively_sounding_alarm_ids := [], stored := FileState.missing }

/-- The C4 manager after the alarm fired at 07:00:05 (epoch 25205). -/
def c4M1 : AlarmManager := (c4Mgr0.check_and_trigger_alarms ⟨25205⟩).2

/-- The C4 manager after the fired alarm was then snoozed at 07:00:10 for
zero minutes, so its deadline 07:00:10 falls inside the same minute. -/
def c4M2 : AlarmManager := (c4M1.snooze_alarm "a" 25210 0).2

/-- C4: evaluation of the code at the failing input.  The alarm fired at
07:00:05, so the last-triggered cache holds this minute; it was then
snoozed until 07:00:10.  At the 07:00:30 scan the snooze deadline has
expired, yet the scan returns nothing, and the snooze state is consumed:
the de-duplication guard at alarm.py:378 reads alarm.is_snoozing after
should_trigger already cleared it, so snooze expiry is suppressed by the
same-minute cache, contrary to the claim. -/
theorem C4_code_eval :
    dictGet c4M2.last_triggered_minute "a" = some (cacheKey ⟨25230⟩) ∧
    (dictGet c4M2.alarms "a").map
      (fun b => (b.enabled, b.is_snoozing, b.snooze_until_timestamp)) =
      some (true, true, some 25210) ∧
    (25210 : Nat) ≤ (DateTime.mk 25230).epoch ∧
    (c4M2.check_and_trigger_alarms ⟨25230⟩).1 = [] ∧
    (dictGet (c4M2.check_and_trigger_alarms ⟨25230⟩).2.alarms "a").map
      (fun b => (b.is_snoozing, b.snooze_until_timestamp)) =
      some (false, none) := by decide

/-! Claim C5. -/

/-- Any alarm produced by from_dict is the stale-snooze reset of an alarm
whose snooze flag and deadline are exactly the persisted ones. -/
theorem from_dict_shape (now : Nat) (gen : String) (r : RawRecord)
    (a : Alarm) (h : Alarm.from_dict now gen r = some a) :
    ∃ b : Alarm, a = resnooze now b ∧
      b.is_snoozing = r.is_snoozing.getD false ∧
      b.snooze_until_timestamp = r.snooze_until_timestamp := by
  rcases hat : r.alarm_time with - | ts
  · simp [Alarm.from_dict, hat] at h
  · rcases hp : parseHMS ts with - | t
    · simp [Alarm.from_dict, hat, hp] at h
    · rcases hl : r.label with - | lbl
      · simp [Alarm.from_dict, hat, hp, hl] at h
      · rcases hd : r.repeat_days with - | days
        · simp [Alarm.from_dict, hat, hp, hl, hd] at h
        · rcases hen : r.enabled with - | en
          · simp [Alarm.from_dict, hat, hp, hl, hd, hen] at h
          · rcases hi : r.alarm_id with - | id
            · simp [Alarm.from_dict, hat, hp, hl, hd, hen, hi] at h
            · simp only [Alarm.from_dict, hat, hp, hl, hd, hen, hi,
                Option.bind_eq_bind, Option.some_bind, Option.pure_def,
                Option.some_inj] at h
              exact ⟨_, h.symm, rfl, rfl⟩

/-- The stale-snooze reset clears the state when the alarm is flagged
snoozing with a set, nonzero deadline strictly in the past. -/
theorem resnooze_clear (now : Nat) (a : Alarm) (t : Nat)
    (h1 : a.is_snoozing = true) (h2 : a.snooze_until_timestamp = some t)
    (h3 : t ≠ 0) (h4 : t < now) :
    resnooze now a =
      { a with is_snoozing := false, snooze_until_timestamp := none } := by
  simp [resnooze, Alarm.snooze_until_datetime, h1, h2, h3, h4]

/-- The stale-snooze reset keeps the alarm unchanged when it is not
flagged snoozing, or its deadline is absent or the falsy timestamp 0, or
the deadline has not passed. -/
theorem resnooze_keep (now : Nat) (a : Alarm)
    (h : a.is_snoozing = false ∨ a.snooze_until_timestamp = none ∨
      a.snooze_until_timestamp = some 0 ∨
      ∃ t, a.snooze_until_timestamp = some t ∧ now ≤ t) :
    resnooze now a = a := by
  rcases h with h | h | h | ⟨t, ht, hle⟩
  · rcases h2 : a.snooze_until_datetime with - | t
    · simp [resnooze, h2]
    · simp [resnooze, h2, h]
  · simp [resnooze, Alarm.snooze_until_datetime, h]
  · simp [resnooze, Alarm.snooze_until_datetime, h]
  · by_cases h0 : t = 0
    · simp [resnooze, Alarm.snooze_until_datetime, ht, h0]
    · have : ¬ t < now := by omega
      simp [resnooze, Alarm.snooze_until_datetime, ht, h0, this]

/-- C5 (amended): what loading a record actually does to the snooze
state.  The snooze flag and deadline load exactly as persisted, except in
the one case of a record flagged snoozing whose deadline is set, nonzero
and strictly in the past, which loads with the snooze state cleared
(scenario D).  In particular a record persisted with is_snoozing false
keeps a future deadline without becoming snoozing, and a record flagged
snoozing with no deadline stays flagged snoozing. -/
theorem C5_load_normalization (now : Nat) (gen : String) (r : RawRecord)
    (a : Alarm) (h : Alarm.from_dict now gen r = some a) :
    (∀ t, r.is_snoozing = some true → r.snooze_until_timestamp = some t →
      t ≠ 0 → t < now →
      a.is_snoozing = false ∧ a.snooze_until_timestamp = none) ∧
    (r.is_snoozing.getD false = false →
      a.is_snoozing = false ∧
      a.snooze_until_timestamp = r.snooze_until_timestamp) ∧
    ((r.snooze_until_timestamp = none ∨ r.snooze_until_timestamp = some 0 ∨
      ∃ t, r.snooze_until_timestamp = some t ∧ now ≤ t) →
      a.is_snoozing = r.is_snoozing.getD false ∧
      a.snooze_until_timestamp = r.snooze_until_timestamp) := by
  obtain ⟨b, rfl, hb1, hb2⟩ := from_dict_shape now gen r a h
  refine ⟨?_, ?_, ?_⟩
  · intro t hs ht htne htlt
    have hc := resnooze_clear now b t (by rw [hb1, hs]; rfl)
      (by rw [hb2, ht]) htne htlt
    rw [hc]
    exact ⟨rfl, rfl⟩
  · intro hs
    have hk := resnooze_keep now b (Or.inl (by rw [hb1, hs]))
    rw [hk]
    exact ⟨by rw [hb1, hs], hb2⟩
  · intro hcase
    have hk : resnooze now b = b := by
      refine resnooze_keep now b ?_
      rcases hcase with hc | hc | ⟨t, ht, hle⟩
      · exact Or.inr (Or.inl (by rw [hb2, hc]))
      · exact Or.inr (Or.inr (Or.inl (by rw [hb2, hc])))
      · exact Or.inr (Or.inr (Or.inr ⟨t, by rw [hb2, ht], hle⟩))
    rw [hk]
    exact ⟨hb1, hb2⟩

/-- A persisted record flagged snoozing with no snooze deadline at all. -/
def c5Rec : RawRecord :=
  { alarm_id := some "r", alarm_time := some "06:30:00", label := some "L",
    repeat_days := some [], enabled := some true, is_snoozing := some true,
    snooze_until_timestamp := none, feed_type := none, feed_options := none }

/-- C5 counterexample: loading a record whose snooze deadline is absent
but whose persisted snoozing flag is true yields an alarm that is still
flagged snoozing; the claim demands that the flag be derived from the
deadline, i.e. that it load as false. -/
theorem C5_counterexample :
    (AlarmManager.load_alarms 1000 "g" (FileState.contents [c5Rec])).alarms.map
      (fun e => (e.1, e.2.is_snoozing, e.2.snooze_until_timestamp)) =
      [("r", true, none)] := by decide

/-- A persisted record flagged snoozing whose deadline 500 lies strictly
before the load instant 1000 (scenario D). -/
def c5wRec : RawRecord :=
  { alarm_id := some "r", alarm_time := some "06:30:00", label := some "L",
    repeat_days := some [], enabled := some true, is_snoozing := some true,
    snooze_until_timestamp := some 500, feed_type := none,
    feed_options := none }

/-- C5 witness: the amended statement applied to the scenario D record;
the expired snooze loads cleared. -/
theorem C5_witness :
    ∃ a, Alarm.from_dict 1000 "g" c5wRec = some a ∧
      a.is_snoozing = false ∧ a.snooze_until_timestamp = none := by
  have h : Alarm.from_dict 1000 "g" c5wRec =
      some (resnooze 1000
        { alarm_id := "r", alarm_time := ⟨6, 30, 0⟩, label := "L",
          repeat_days := [], enabled := true, is_snoozing := true,
          snooze_until_timestamp := some 500, feed_type := "daily_news",
          feed_options := [] }) := by decide
  refine ⟨_, h, ?_⟩
  exact (C5_load_normalization 1000 "g" c5wRec _ h).1 500 rfl rfl
    (by decide) (by decide)

/-! Claim C6. -/

/-- Decimal digit facts for the two-digit field rendering: it parses back
to the value and contains no colon. -/
theorem twoDigits_spec : ∀ n : Nat, n ≤ 59 →
    parseNat2 (twoDigitsL n) = some n ∧
    Char.ofNat (48 + n / 10) ≠ ':' ∧ Char.ofNat (48 + n % 10) ≠ ':' := by
  decide

/-- Splitting a list at a separator peels off a separator-free prefix. -/
theorem splitOnChar_append (sep : Char) (l1 l2 : List Char)
    (h : ∀ c ∈ l1, c ≠ sep) :
    splitOnChar sep (l1 ++ sep :: l2) = l1 :: splitOnChar sep l2 := by
  induction l1 with
  | nil => simp [splitOnChar]
  | cons c rest ih =>
      have hc : c ≠ sep := h c (by simp)
      have hrest : ∀ x ∈ rest, x ≠ sep := fun x hx => h x (by simp [hx])
      simp only [List.cons_append, splitOnChar, if_neg hc, List.append_eq,
        ih hrest]

/-- Splitting a separator-free list yields it whole. -/
theorem splitOnChar_no_sep (sep : Char) (l : List Char)
    (h : ∀ c ∈ l, c ≠ sep) : splitOnChar sep l = [l] := by
  induction l with
  | nil => simp [splitOnChar]
  | cons c rest ih =>
      have hc : c ≠ sep := h c (by simp)
      have hrest : ∀ x ∈ rest, x ≠ sep := fun x hx => h x (by simp [hx])
      simp only [splitOnChar, if_neg hc, ih hrest]

/-- Parsing undoes the strftime rendering on any valid time of day. -/
theorem parse_format (t : Time) (hh : t.hour ≤ 23) (hm : t.minute ≤ 59)
    (hs : t.second ≤ 59) : parseHMS (formatHMS t) = some t := by
  obtain ⟨hph, hh1, hh2⟩ := twoDigits_spec t.hour (by omega)
  obtain ⟨hpm, hm1, hm2⟩ := twoDigits_spec t.minute hm
  obtain ⟨hps, hs1, hs2⟩ := twoDigits_spec t.second hs
  have hmem : ∀ n, Char.ofNat (48 + n / 10) ≠ ':' →
      Char.ofNat (48 + n % 10) ≠ ':' → ∀ c ∈ twoDigitsL n, c ≠ ':' := by
    intro n h1 h2 c hc
    rcases (by simpa [twoDigitsL] using hc : c = Char.ofNat (48 + n / 10) ∨
      c = Char.ofNat (48 + n % 10)) with rfl | rfl
    · exact h1
    · exact h2
  have key : splitOnChar ':' (formatHMS t).data =
      [twoDigitsL t.hour, twoDigitsL t.minute, twoDigitsL t.second] := by
    show splitOnChar ':' (twoDigitsL t.hour ++
      (':' :: (twoDigitsL t.minute ++ (':' :: twoDigitsL t.second)))) = _
    rw [splitOnChar_append _ _ _ (hmem _ hh1 hh2),
      splitOnChar_append _ _ _ (hmem _ hm1 hm2),
      splitOnChar_no_sep _ _ (hmem _ hs1 hs2)]
  obtain ⟨h0, m0, s0⟩ := t
  simp only [parseHMS, key, hph, hpm, hps]
  simp only at hh hm hs
  rw [if_pos ⟨hh, hm, hs⟩]

/-- C6 (amended): deserialising the serialised form of an alarm whose
fields satisfy the constructor invariants (valid time of day, nonempty
id, canonical repeat days) gives back the alarm with every field equal,
except that when the alarm is snoozing with a set, nonzero deadline
strictly in the past the round trip normalises it to not snoozing.  An
alarm that is not flagged snoozing round-trips unchanged even when it
carries a past deadline. -/
theorem C6_roundtrip (a : Alarm) (now : Nat) (gen : String)
    (hid : a.alarm_id ≠ "")
    (hh : a.alarm_time.hour ≤ 23) (hm : a.alarm_time.minute ≤ 59)
    (hs : a.alarm_time.second ≤ 59)
    (hdays : canonDays a.repeat_days = a.repeat_days) :
    Alarm.from_dict now gen a.to_dict = some (resnooze now a) ∧
    ((a.is_snoozing = false ∨ a.snooze_until_timestamp = none ∨
      a.snooze_until_timestamp = some 0 ∨
      ∃ t, a.snooze_until_timestamp = some t ∧ now ≤ t) →
      Alarm.from_dict now gen a.to_dict = some a) ∧
    (∀ t, a.is_snoozing = true → a.snooze_until_timestamp = some t →
      t ≠ 0 → t < now →
      Alarm.from_dict now gen a.to_dict =
        some { a with is_snoozing := false,
                      snooze_until_timestamp := none }) := by
  have h1 : Alarm.from_dict now gen a.to_dict = some (resnooze now a) := by
    obtain ⟨id, tm, lbl, days, en, isn, ts, ft, fo⟩ := a
    simp only at hid hh hm hs hdays
    simp [Alarm.from_dict, Alarm.to_dict, parse_format tm hh hm hs,
      Alarm.make, hid, hdays]
  refine ⟨h1, ?_, ?_⟩
  · intro hcase
    rw [h1, resnooze_keep now a hcase]
  · intro t hsn ht htne htlt
    rw [h1, resnooze_clear now a t hsn ht htne htlt]

/-- An alarm not flagged snoozing that still carries the past deadline
10. -/
def c6Alarm : Alarm :=
  { alarm_id := "c", alarm_time := ⟨9, 15, 30⟩, label := "stale",
    repeat_days := [1, 3], enabled := true, is_snoozing := false,
    snooze_until_timestamp := some 10, feed_type := "topic_facts",
    feed_options := [("topic", "Space")] }

/-- C6 counterexample: this alarm carries a snooze deadline (10) strictly
before now (100), yet the round trip at instant 100 returns it completely
unchanged, with the deadline still set; the claim demands that a past
deadline be normalised to snooze_until == None after the round trip. -/
theorem C6_counterexample :
    c6Alarm.snooze_until_timestamp = some 10 ∧ (10 : Nat) < 100 ∧
    Alarm.from_dict 100 "g" c6Alarm.to_dict = some c6Alarm ∧
    c6Alarm.snooze_until_timestamp ≠ none := by decide

/-- A snoozing alarm whose deadline 50 is strictly before the round-trip
instant 100. -/
def c6wAlarm : Alarm :=
  { alarm_id := "w", alarm_time := ⟨23, 59, 59⟩, label := "late",
    repeat_days := [0, 6], enabled := true, is_snoozing := true,
    snooze_until_timestamp := some 50, feed_type := "daily_news",
    feed_options := [] }

/-- C6 witness: the amended round trip applied to a snoozing alarm with an
expired deadline, which comes back normalised to not snoozing. -/
theorem C6_witness :
    Alarm.from_dict 100 "g" c6wAlarm.to_dict =
      some { c6wAlarm with is_snoozing := false,
                           snooze_until_timestamp := none } :=
  (C6_roundtrip c6wAlarm 100 "g" (by decide) (by decide) (by decide)
    (by decide) (by decide)).2.2 50 rfl rfl (by decide) (by decide)

/-! Claim C8. -/

/-- A record that fails to parse is skipped and counted, and the rest of
the records load exactly as they would without it. -/
theorem loadRecordsGo_skip (now : Nat) (gen : String) (r : RawRecord)
    (hr : Alarm.from_dict now gen r = none) :
    ∀ (l1 l2 : List RawRecord) (acc : List (String × Alarm)),
      loadRecordsGo now gen (l1 ++ r :: l2) acc =
        ((loadRecordsGo now gen (l1 ++ l2) acc).1,
         (loadRecordsGo now gen (l1 ++ l2) acc).2 + 1) := by
  intro l1
  induction l1 with
  | nil =>
      intro l2 acc
      simp [loadRecordsGo, hr]
  | cons p rest ih =>
      intro l2 acc
      rcases hp : Alarm.from_dict now gen p with - | a <;>
        simp [loadRecordsGo, hp, ih]

/-- C8: loading fails open.  A missing file yields an empty collection
with no error; a malformed file yields an empty collection and a reported
error instead of a crash; and a record that fails to parse is skipped,
with one more reported record error, while every other record loads
exactly as it would have without it. -/
theorem C8_load_fail_open :
    (∀ now gen, AlarmManager.load_alarms now gen FileState.missing =
      ⟨[], false, 0⟩) ∧
    (∀ now gen, AlarmManager.load_alarms now gen FileState.malformed =
      ⟨[], true, 0⟩) ∧
    (∀ now gen (l1 l2 : List RawRecord) (r : RawRecord),
      Alarm.from_dict now gen r = none →
      AlarmManager.load_alarms now gen (FileState.contents (l1 ++ r :: l2)) =
        ⟨(AlarmManager.load_alarms now gen
            (FileState.contents (l1 ++ l2))).alarms,
          false,
          (AlarmManager.load_alarms now gen
            (FileState.contents (l1 ++ l2))).record_errors + 1⟩) := by
  refine ⟨fun now gen => rfl, fun now gen => rfl, ?_⟩
  intro now gen l1 l2 r hr
  simp [AlarmManager.load_alarms, loadRecordsGo_skip now gen r hr]

/-- A well-formed persisted record. -/
def c8Good1 : RawRecord :=
  { alarm_id := some "g1", alarm_time := some "07:00:00", label := some "A",
    repeat_days := some [], enabled := some true, is_snoozing := some false,
    snooze_until_timestamp := none, feed_type := some "daily_news",
    feed_options := some [] }

/-- Another well-formed persisted record. -/
def c8Good2 : RawRecord :=
  { alarm_id := some "g2", alarm_time := some "08:30:00", label := some "B",
    repeat_days := some [0, 4], enabled := some false,
    is_snoozing := some false, snooze_until_timestamp := none,
    feed_type := some "topic_facts", feed_options := some [] }

/-- A malformed record: the required label key is missing. -/
def c8Bad : RawRecord :=
  { alarm_id := some "bad", alarm_time := some "09:00:00", label := none,
    repeat_days := some [], enabled := some true, is_snoozing := none,
    snooze_until_timestamp := none, feed_type := none, feed_options := none }

/-- C8 witness: loading a file with a malformed record between two good
ones loads the good ones exactly as without it and reports one record
error. -/
theorem C8_witness :
    AlarmManager.load_alarms 1000 "g"
        (FileState.contents ([c8Good1] ++ c8Bad :: [c8Good2])) =
      ⟨(AlarmManager.load_alarms 1000 "g"
          (FileState.contents ([c8Good1] ++ [c8Good2]))).alarms,
        false,
        (AlarmManager.load_alarms 1000 "g"
          (FileState.contents ([c8Good1] ++ [c8Good2]))).record_errors + 1⟩ :=
  C8_load_fail_open.2.2 1000 "g" [c8Good1] [c8Good2] c8Bad (by decide)

/-! Claim C9. -/

/-- snooze_alarm never changes the actively sounding set. -/
theorem snooze_alarm_active (m : AlarmManager) (id : String)
    (now minutes : Nat) :
    (m.snooze_alarm id now minutes).2.actively_sounding_alarm_ids =
      m.actively_sounding_alarm_ids := by
  rcases hg : dictGet m.alarms id with - | a
  · simp [AlarmManager.snooze_alarm, hg]
  · by_cases he : a.enabled <;>
      simp [AlarmManager.snooze_alarm, hg, he, AlarmManager.save_alarms]

/-- snooze_alarm never changes which ids resolve to an alarm. -/
theorem snooze_alarm_alarms_isSome (m : AlarmManager) (id : String)
    (now minutes : Nat) (x : String) :
    (dictGet (m.snooze_alarm id now minutes).2.alarms x).isSome =
      (dictGet m.alarms x).isSome := by
  rcases hg : dictGet m.alarms id with - | a
  · simp [AlarmManager.snooze_alarm, hg]
  · by_cases he : a.enabled
    · simp only [AlarmManager.snooze_alarm, hg, if_pos he,
        AlarmManager.save_alarms]
      by_cases hx : id = x
      · subst hx
        simp [dictGet_dictSet_self, hg]
      · rw [dictGet_dictSet_ne _ _ _ _ hx]
    · simp [AlarmManager.snooze_alarm, hg, he]

/-- Ids can only leave the actively sounding set during the
request-snooze loop, never enter it. -/
theorem requestSnoozeGo_active_antitone (now minutes : Nat) :
    ∀ (l : List String) (m : AlarmManager) (acc : List String) (x : String),
      x ∈ (requestSnoozeGo now minutes l m acc).2.actively_sounding_alarm_ids →
      x ∈ m.actively_sounding_alarm_ids := by
  intro l
  induction l with
  | nil =>
      intro m acc x h
      simpa [requestSnoozeGo] using h
  | cons id rest ih =>
      intro m acc x h
      rcases hg : dictGet m.alarms id with - | a
      · simp only [requestSnoozeGo, hg] at h
        have h2 := ih _ _ _ h
        by_cases hx : x = id
        · subst hx
          exact absurd h2 (not_mem_setDiscard _ _)
        · exact (mem_setDiscard_ne _ _ _ hx).mp h2
      · by_cases he : a.enabled
        · simp only [requestSnoozeGo, hg, if_pos he] at h
          have h2 := ih _ _ _ h
          rwa [snooze_alarm_active] at h2
        · simp only [requestSnoozeGo, hg, if_neg he] at h
          exact ih _ _ _ h


/-- An actively sounding id that still resolves to an alarm survives the
request-snooze loop. -/
theorem requestSnoozeGo_active_kept (now minutes : Nat) :
    ∀ (l : List String) (m : AlarmManager) (acc : List String) (x : String),
      x ∈ m.actively_sounding_alarm_ids →
      (dictGet m.alarms x).isSome = true →
      x ∈ (requestSnoozeGo now minutes l m acc).2.actively_sounding_alarm_ids := by
  intro l
  induction l with
  | nil =>
      intro m acc x hx hsome
      simpa [requestSnoozeGo] using hx
  | cons id rest ih =>
      intro m acc x hx hsome
      rcases hg : dictGet m.alarms id with - | a
      · have hxid : x ≠ id := by
          intro h
          rw [h, hg] at hsome
          simp at hsome
        simp only [requestSnoozeGo, hg]
        exact ih _ _ _ ((mem_setDiscard_ne _ _ _ hxid).mpr hx) hsome
      · by_cases he : a.enabled
        · simp only [requestSnoozeGo, hg, if_pos he]
          refine ih _ _ _ ?_ ?_
          · rwa [snooze_alarm_active]
          · rwa [snooze_alarm_alarms_isSome]
        · simp only [requestSnoozeGo, hg, if_neg he]
          exact ih _ _ _ hx hsome

/-- An id in the processed list that no longer resolves to an alarm is
dropped by the request-snooze loop. -/
theorem requestSnoozeGo_active_dropped (now minutes : Nat) :
    ∀ (l : List String) (m : AlarmManager) (acc : List String) (x : String),
      x ∈ l → (dictGet m.alarms x).isSome = false →
      x ∉ (requestSnoozeGo now minutes l m acc).2.actively_sounding_alarm_ids := by
  intro l
  induction l with
  | nil =>
      intro m acc x hx
      simp at hx
  | cons id rest ih =>
      intro m acc x hx hnone
      rcases List.mem_cons.mp hx with rfl | hx2
      · rcases hg : dictGet m.alarms x with - | a
        · simp only [requestSnoozeGo, hg]
          intro hmem
          have h2 := requestSnoozeGo_active_antitone now minutes _ _ _ _ hmem
          exact absurd h2 (not_mem_setDiscard _ _)
        · rw [hg] at hnone
          simp at hnone
      · rcases hg : dictGet m.alarms id with - | a
        · simp only [requestSnoozeGo, hg]
          exact ih _ _ _ hx2 hnone
        · by_cases he : a.enabled
          · simp only [requestSnoozeGo, hg, if_pos he]
            refine ih _ _ _ hx2 ?_
            rwa [snooze_alarm_alarms_isSome]
          · simp only [requestSnoozeGo, hg, if_neg he]
            exact ih _ _ _ hx2 hnone

/-- One scan iteration can only add ids to the actively sounding set. -/
theorem scanEntry_active_mem (now : DateTime) (key : Nat × Nat)
    (st : ScanState) (e : String × Alarm) (x : String)
    (h : x ∈ st.active) : x ∈ (scanEntry now key st e).active := by
  unfold scanEntry
  by_cases h1 : (e.2.should_trigger now).1
  · by_cases h2 : (e.2.should_trigger now).2.is_snoozing = false ∧
        dictGet st.cache e.1 = some key
    · simp only [h1, if_true, if_pos h2]
      exact h
    · simp only [h1, if_true, if_neg h2]
      exact (mem_setAdd _ _ _).mpr (Or.inl h)
  · simp only [h1]
    simp only [Bool.false_eq_true, if_false]
    exact h

/-- The whole scan can only add ids to the actively sounding set. -/
theorem scanFold_active_mem (now : DateTime) (key : Nat × Nat) :
    ∀ (l : List (String × Alarm)) (st : ScanState) (x : String),
      x ∈ st.active → x ∈ (l.foldl (scanEntry now key) st).active := by
  intro l
  induction l with
  | nil => intro st x h; simpa using h
  | cons e rest ih =>
      intro st x h
      exact ih _ _ (scanEntry_active_mem now key st e x h)

/-- C9 (amended): how the actively sounding set really evolves.  Removing
an alarm leaves the set untouched (the removed id lingers);
mark_alarm_processing_complete removes exactly the given id; add, create,
update, enable, disable, snooze and save leave the set unchanged, and the
trigger scan only ever adds to it.  The request-snooze loop is the one
other operation that removes ids: an id that no longer resolves to an
alarm is dropped, while ids still backed by an alarm survive, and nothing
is added. -/
theorem C9_active_set_dynamics (m : AlarmManager) (id x gen : String)
    (a : Alarm) (u : AlarmUpdate) (now minutes : Nat) (d : DateTime)
    (tm : Time) (lbl : String) (days : List Nat) (en : Bool)
    (oid : Option String) (ft : String) (fo : List (String × String)) :
    ((m.remove_alarm id).actively_sounding_alarm_ids =
      m.actively_sounding_alarm_ids) ∧
    ((m.mark_alarm_processing_complete id).actively_sounding_alarm_ids =
      setDiscard m.actively_sounding_alarm_ids id) ∧
    ((m.add_alarm_obj a).2.actively_sounding_alarm_ids =
      m.actively_sounding_alarm_ids) ∧
    ((m.create_alarm gen tm lbl days en oid ft fo).2.actively_sounding_alarm_ids =
      m.actively_sounding_alarm_ids) ∧
    ((m.update_alarm id u).2.actively_sounding_alarm_ids =
      m.actively_sounding_alarm_ids) ∧
    ((m.enable_alarm id).actively_sounding_alarm_ids =
      m.actively_sounding_alarm_ids) ∧
    ((m.disable_alarm id).actively_sounding_alarm_ids =
      m.actively_sounding_alarm_ids) ∧
    ((m.snooze_alarm id now minutes).2.actively_sounding_alarm_ids =
      m.actively_sounding_alarm_ids) ∧
    (m.save_alarms.actively_sounding_alarm_ids =
      m.actively_sounding_alarm_ids) ∧
    (x ∈ m.actively_sounding_alarm_ids →
      x ∈ (m.check_and_trigger_alarms d).2.actively_sounding_alarm_ids) ∧
    (x ∈ (m.request_snooze_for_active_alarms now minutes).2.actively_sounding_alarm_ids →
      x ∈ m.actively_sounding_alarm_ids) ∧
    (x ∈ m.actively_sounding_alarm_ids →
      (dictGet m.alarms x).isSome = true →
      x ∈ (m.request_snooze_for_active_alarms now minutes).2.actively_sounding_alarm_ids) ∧
    (x ∈ m.actively_sounding_alarm_ids →
      (dictGet m.alarms x).isSome = false →
      x ∉ (m.request_snooze_for_active_alarms now minutes).2.actively_sounding_alarm_ids) := by
  refine ⟨?_, rfl, ?_, ?_, ?_, ?_, ?_, ?_, rfl, ?_, ?_, ?_, ?_⟩
  · by_cases h : (dictGet m.alarms id).isSome <;>
      simp [AlarmManager.remove_alarm, AlarmManager.save_alarms, h]
  · by_cases h : (dictGet m.alarms a.alarm_id).isSome <;>
      simp [AlarmManager.add_alarm_obj, AlarmManager.save_alarms, h]
  · unfold AlarmManager.create_alarm
    by_cases h : (dictGet m.alarms (Alarm.make gen tm lbl days en oid ft
        fo).alarm_id).isSome <;>
      simp [AlarmManager.add_alarm_obj, AlarmManager.save_alarms, h]
  · rcases hg : dictGet m.alarms id with - | b <;>
      simp [AlarmManager.update_alarm, AlarmManager.save_alarms, hg]
  · rcases hg : dictGet m.alarms id with - | b <;>
      simp [AlarmManager.enable_alarm, AlarmManager.save_alarms, hg]
  · rcases hg : dictGet m.alarms id with - | b <;>
      simp [AlarmManager.disable_alarm, AlarmManager.save_alarms, hg]
  · exact snooze_alarm_active m id now minutes
  · intro h
    exact scanFold_active_mem d (cacheKey d) m.alarms _ x h
  · intro h
    exact requestSnoozeGo_active_antitone now minutes _ _ _ _ h
  · intro h hsome
    exact requestSnoozeGo_active_kept now minutes _ _ _ _ h hsome
  · intro h hnone
    exact requestSnoozeGo_active_dropped now minutes _ _ _ _ h hnone

/-- A manager whose only alarm is actively sounding. -/
def c9Mgr : AlarmManager :=
  { alarms := [("a", c1Alarm)], last_triggered_minute := [("a", (7, 0))],
    actively_sounding_alarm_ids := ["a"], stored := FileState.missing }

/-- A manager with a stale actively sounding id that resolves to no
alarm. -/
def c9Mgr2 : AlarmManager :=
  { alarms := [], last_triggered_minute := [],
    actively_sounding_alarm_ids := ["ghost"], stored := FileState.missing }

/-- C9 counterexample: removing alarm "a" deletes it from the mapping but
leaves its id in the actively sounding set, refuting the claim that
removal takes the id out; and the request-snooze loop removes the stale
id "ghost" from the set, refuting the claim that no operation other than
mark-processing-complete and removal removes ids. -/
theorem C9_counterexample :
    dictGet (c9Mgr.remove_alarm "a").alarms "a" = none ∧
    (c9Mgr.remove_alarm "a").actively_sounding_alarm_ids = ["a"] ∧
    (c9Mgr2.request_snooze_for_active_alarms 1000 9).2.actively_sounding_alarm_ids = [] := by
  decide

/-- C9 witness: the amended dynamics applied to the concrete manager
above, for id and probe "a". -/
theorem C9_witness :
    (c9Mgr.remove_alarm "a").actively_sounding_alarm_ids =
      c9Mgr.actively_sounding_alarm_ids ∧
    (c9Mgr.mark_alarm_processing_complete "a").actively_sounding_alarm_ids =
      setDiscard c9Mgr.actively_sounding_alarm_ids "a" ∧
    "a" ∈ (c9Mgr.check_and_trigger_alarms ⟨25200⟩).2.actively_sounding_alarm_ids ∧
    "a" ∈ (c9Mgr.request_snooze_for_active_alarms 25200 9).2.actively_sounding_alarm_ids := by
  have h := C9_active_set_dynamics c9Mgr "a" "a" "g" c1Alarm
    ⟨none, none, none, none, none, none⟩ 25200 9 ⟨25200⟩ ⟨7, 0, 0⟩ "w" []
    true none "daily_news" []
  refine ⟨h.1, h.2.1, ?_, ?_⟩
  · exact h.2.2.2.2.2.2.2.2.2.1 (by decide)
  · exact h.2.2.2.2.2.2.2.2.2.2.2.1 (by decide) (by decide)

/-! Claim C10. -/

/-- An expired, set, nonzero snooze deadline makes should_trigger fire and
clear the snooze state. -/
theorem should_trigger_expired (a : Alarm) (now : DateTime) (t : Nat)
    (hen : a.enabled = true) (hsn : a.is_snoozing = true)
    (hts : a.snooze_until_timestamp = some t) (htne : t ≠ 0)
    (hle : t ≤ now.epoch) :
    a.should_trigger now =
      (true, { a with is_snoozing := false,
                      snooze_until_timestamp := none }) := by
  have hd : a.snooze_until_datetime = some t := by
    simp [Alarm.snooze_until_datetime, hts, htne]
  simp [Alarm.should_trigger, hen, hsn, hd, hle]

/-- One scan iteration appends exactly its entry to the processed list,
with the value returned by should_trigger, possibly disabled. -/
theorem scanEntry_done_shape (now : DateTime) (key : Nat × Nat)
    (st : ScanState) (e : String × Alarm) :
    ∃ v, (scanEntry now key st e).done = st.done ++ [(e.1, v)] ∧
      (v = (e.2.should_trigger now).2 ∨
       v = (e.2.should_trigger now).2.disable) := by
  unfold scanEntry
  by_cases h1 : (e.2.should_trigger now).1
  · by_cases h2 : (e.2.should_trigger now).2.is_snoozing = false ∧
        dictGet st.cache e.1 = some key
    · exact ⟨_, by simp only [h1, if_true, if_pos h2], Or.inl rfl⟩
    · by_cases h3 : (e.2.should_trigger now).2.repeat_days.isEmpty = true ∧
          (e.2.should_trigger now).2.alarm_id ∉ setAdd st.active e.1 ∧
          (e.2.should_trigger now).2.is_snoozing = false
      · exact ⟨_, by simp only [h1, if_true, if_neg h2, if_pos h3],
          Or.inr rfl⟩
      · exact ⟨_, by simp only [h1, if_true, if_neg h2, if_neg h3],
          Or.inl rfl⟩
  · exact ⟨_, by simp only [h1, Bool.false_eq_true, if_false], Or.inl rfl⟩

/-- A processed entry already recorded keeps its recorded value through
the rest of the scan. -/
theorem scanFold_done_get (now : DateTime) (key : Nat × Nat) :
    ∀ (l : List (String × Alarm)) (st : ScanState) (id : String) (v : Alarm),
      dictGet st.done id = some v →
      dictGet ((l.foldl (scanEntry now key) st).done) id = some v := by
  intro l
  induction l with
  | nil => intro st id v h; simpa using h
  | cons e rest ih =>
      intro st id v h
      obtain ⟨w, hw, -⟩ := scanEntry_done_shape now key st e
      refine ih _ id v ?_
      rw [hw, dictGet_append, h]
      rfl

/-- Through the whole scan, an alarm whose set, nonzero snooze deadline
has expired comes out with its snooze state cleared in the processed
collection. -/
theorem scanFold_clears (now : DateTime) (key : Nat × Nat) :
    ∀ (l : List (String × Alarm)) (st : ScanState) (id : String) (a : Alarm)
      (t : Nat),
      dictGet l id = some a → dictGet st.done id = none →
      a.enabled = true → a.is_snoozing = true →
      a.snooze_until_timestamp = some t → t ≠ 0 → t ≤ now.epoch →
      ∃ b, dictGet ((l.foldl (scanEntry now key) st).done) id = some b ∧
        b.is_snoozing = false ∧ b.snooze_until_timestamp = none := by
  intro l
  induction l with
  | nil =>
      intro st id a t hget
      simp [dictGet] at hget
  | cons e rest ih =>
      intro st id a t hget hdone hen hsn hts htne hle
      obtain ⟨k, v⟩ := e
      obtain ⟨w, hw, hcases⟩ := scanEntry_done_shape now key st (k, v)
      by_cases hk : k = id
      · subst hk
        have hv : v = a := by simpa [dictGet] using hget
        subst hv
        have hst := should_trigger_expired v now t hen hsn hts htne hle
        have hwprops : w.is_snoozing = false ∧
            w.snooze_until_timestamp = none := by
          rcases hcases with rfl | rfl <;> simp [hst, Alarm.disable]
        have hget2 : dictGet (scanEntry now key st (k, v)).done k = some w := by
          rw [hw, dictGet_append, hdone]
          simp [dictGet]
        exact ⟨w, scanFold_done_get now key rest _ k w hget2, hwprops.1,
          hwprops.2⟩
      · have hget2 : dictGet rest id = some a := by
          simpa [dictGet, hk] using hget
        have hdone2 : dictGet (scanEntry now key st (k, v)).done id = none := by
          rw [hw, dictGet_append, hdone]
          simp [dictGet, hk]
        exact ih _ id a t hget2 hdone2 hen hsn hts htne hle

/-- C10: the trigger scan never writes to the persistence backend.  The
stored file is bitwise the one from before the scan, even though the scan
does mutate in-memory state: an alarm whose snooze deadline expires
during the scan has its snooze cleared in memory, while the file keeps
whatever it last recorded (a snoozing alarm stays recorded as snoozing
until some other operation saves). -/
theorem C10_scan_no_persist (m : AlarmManager) (now : DateTime) :
    ((m.check_and_trigger_alarms now).2.stored = m.stored) ∧
    (∀ id a t, dictGet m.alarms id = some a → a.enabled = true →
      a.is_snoozing = true → a.snooze_until_timestamp = some t → t ≠ 0 →
      t ≤ now.epoch →
      ∃ b, dictGet (m.check_and_trigger_alarms now).2.alarms id = some b ∧
        b.is_snoozing = false ∧ b.snooze_until_timestamp = none) := by
  constructor
  · rfl
  · intro id a t hget hen hsn hts htne hle
    exact scanFold_clears now (cacheKey now) m.alarms
      ⟨[], m.last_triggered_minute, m.actively_sounding_alarm_ids, []⟩
      id a t hget rfl hen hsn hts htne hle

/-- A snoozing enabled alarm with expired deadline 100. -/
def c10Alarm : Alarm :=
  { alarm_id := "s", alarm_time := ⟨5, 0, 0⟩, label := "nap",
    repeat_days := [], enabled := true, is_snoozing := true,
    snooze_until_timestamp := some 100, feed_type := "daily_news",
    feed_options := [] }

/-- A manager whose stored file records that alarm as snoozing. -/
def c10Mgr : AlarmManager :=
  { alarms := [("s", c10Alarm)], last_triggered_minute := [],
    actively_sounding_alarm_ids := [],
    stored := FileState.contents [c10Alarm.to_dict] }

/-- C10 witness: scanning at epoch 200 expires the snooze in memory while
the stored file still records the alarm as snoozing. -/
theorem C10_witness :
    (c10Mgr.check_and_trigger_alarms ⟨200⟩).2.stored =
      FileState.contents [c10Alarm.to_dict] ∧
    c10Alarm.to_dict.is_snoozing = some true ∧
    (∃ b, dictGet (c10Mgr.check_and_trigger_alarms ⟨200⟩).2.alarms "s" =
      some b ∧ b.is_snoozing = false ∧ b.snooze_until_timestamp = none) := by
  have h := C10_scan_no_persist c10Mgr ⟨200⟩
  exact ⟨h.1, rfl,
    h.2 "s" c10Alarm 100 rfl rfl rfl rfl (by decide) (by decide)⟩

/-! Claim C3. -/

/-- Case analysis of one scan iteration for the de-duplication argument:
either nothing is returned and the cache at the id of the entry is either
untouched or evicted (and then it did not hold the current key), or the
entry fires, one alarm carrying the id of the entry is appended to the
result, the cache entry is set to the current key, and the skip test of
line 378 was false. -/
theorem scanEntry_cases (now : DateTime) (key : Nat × Nat) (st : ScanState)
    (e : String × Alarm) :
    ((scanEntry now key st e).triggered = st.triggered ∧
      ((scanEntry now key st e).cache = st.cache ∨
       ((scanEntry now key st e).cache = dictDel st.cache e.1 ∧
        dictGet st.cache e.1 ≠ some key))) ∨
    (∃ v, (scanEntry now key st e).triggered = st.triggered ++ [v] ∧
      v.alarm_id = e.2.alarm_id ∧
      (scanEntry now key st e).cache = dictSet st.cache e.1 key ∧
      (e.2.should_trigger now).1 = true ∧
      ¬((e.2.should_trigger now).2.is_snoozing = false ∧
        dictGet st.cache e.1 = some key)) := by
  unfold scanEntry
  by_cases h1 : (e.2.should_trigger now).1
  · by_cases h2 : (e.2.should_trigger now).2.is_snoozing = false ∧
        dictGet st.cache e.1 = some key
    · left
      refine ⟨by simp only [h1, if_true, if_pos h2], Or.inl ?_⟩
      simp only [h1, if_true, if_pos h2]
    · right
      by_cases h3 : (e.2.should_trigger now).2.repeat_days.isEmpty = true ∧
          (e.2.should_trigger now).2.alarm_id ∉ setAdd st.active e.1 ∧
          (e.2.should_trigger now).2.is_snoozing = false
      · refine ⟨(e.2.should_trigger now).2.disable,
          by simp only [h1, if_true, if_neg h2, if_pos h3], ?_,
          by simp only [h1, if_true, if_neg h2, if_pos h3], h1, h2⟩
        simp [Alarm.disable, should_trigger_alarm_id]
      · refine ⟨(e.2.should_trigger now).2,
          by simp only [h1, if_true, if_neg h2, if_neg h3], ?_,
          by simp only [h1, if_true, if_neg h2, if_neg h3], h1, h2⟩
        exact should_trigger_alarm_id e.2 now
  · left
    constructor
    · simp only [h1, Bool.false_eq_true, if_false]
    · rcases hc : dictGet st.cache e.1 with - | k
      · left
        simp only [h1, Bool.false_eq_true, if_false, hc]
      · by_cases hk : k = key
        · left
          simp only [h1, Bool.false_eq_true, if_false, hc, hk, ne_eq,
            not_true_eq_false, if_false]
        · right
          constructor
          · simp only [h1, Bool.false_eq_true, if_false, hc, ne_eq, hk,
              not_false_eq_true, if_true]
          · intro hcon
            exact hk (Option.some.inj hcon)

/-- A cache entry that holds the current key survives one scan iteration
with that value. -/
theorem scanEntry_cache_stable (now : DateTime) (key : Nat × Nat)
    (st : ScanState) (e : String × Alarm) (j : String)
    (h : dictGet st.cache j = some key) :
    dictGet (scanEntry now key st e).cache j = some key := by
  rcases scanEntry_cases now key st e with ⟨-, hc | ⟨hc, hne⟩⟩ |
      ⟨v, -, -, hc, -, -⟩
  · rw [hc]
    exact h
  · rw [hc]
    by_cases hj : e.1 = j
    · subst hj
      exact absurd h hne
    · rw [dictGet_dictDel_ne _ _ _ hj]
      exact h
  · rw [hc]
    by_cases hj : e.1 = j
    · subst hj
      exact dictGet_dictSet_self _ _ _
    · rw [dictGet_dictSet_ne _ _ _ _ hj]
      exact h

/-- Every alarm returned by the scan leaves the cache entry under its id
set to the current minute key. -/
theorem scanFold_triggered_cache (now : DateTime) (key : Nat × Nat) :
    ∀ (l : List (String × Alarm)) (st : ScanState),
      (∀ e ∈ l, (Prod.snd e).alarm_id = Prod.fst e) →
      (∀ b ∈ st.triggered, dictGet st.cache b.alarm_id = some key) →
      ∀ b ∈ (l.foldl (scanEntry now key) st).triggered,
        dictGet ((l.foldl (scanEntry now key) st).cache) b.alarm_id =
          some key := by
  intro l
  induction l with
  | nil =>
      intro st hf hinv
      simpa using hinv
  | cons e rest ih =>
      intro st hf hinv
      refine ih _ (fun x hx => hf x (by simp [hx])) ?_
      have hfe : (Prod.snd e).alarm_id = Prod.fst e := hf e (by simp)
      intro b hb
      rcases scanEntry_cases now key st e with ⟨ht, -⟩ |
          ⟨v, ht, hvid, hc, -, -⟩
      · rw [ht] at hb
        exact scanEntry_cache_stable now key st e _ (hinv b hb)
      · rw [ht] at hb
        rcases List.mem_append.mp hb with hb2 | hb2
        · exact scanEntry_cache_stable now key st e _ (hinv b hb2)
        · have hbv : b = v := by simpa using hb2
          subst hbv
          rw [hc, hvid, hfe]
          exact dictGet_dictSet_self _ _ _

/-- If the cache already holds the current minute key for some id, no
alarm carrying that id is returned by the rest of the scan. -/
theorem scanFold_no_retrigger (now : DateTime) (key : Nat × Nat) :
    ∀ (l : List (String × Alarm)) (st : ScanState) (j : String),
      (∀ e ∈ l, (Prod.snd e).alarm_id = Prod.fst e) →
      dictGet st.cache j = some key →
      (∀ b ∈ st.triggered, b.alarm_id ≠ j) →
      ∀ b ∈ (l.foldl (scanEntry now key) st).triggered, b.alarm_id ≠ j := by
  intro l
  induction l with
  | nil =>
      intro st j hf hc hinv
      simpa using hinv
  | cons e rest ih =>
      intro st j hf hc hinv
      refine ih _ j (fun x hx => hf x (by simp [hx]))
        (scanEntry_cache_stable now key st e j hc) ?_
      intro b hb
      rcases scanEntry_cases now key st e with ⟨ht, -⟩ |
          ⟨v, ht, hvid, -, hfire, hskip⟩
      · rw [ht] at hb
        exact hinv b hb
      · rw [ht] at hb
        rcases List.mem_append.mp hb with hb2 | hb2
        · exact hinv b hb2
        · have hbv : b = v := by simpa using hb2
          subst hbv
          have hfe : (Prod.snd e).alarm_id = Prod.fst e := hf e (by simp)
          rw [hvid, hfe]
          intro hej
          rw [hej] at hskip
          exact hskip ⟨should_trigger_true_not_snoozing e.2 now hfire, hc⟩

/-- The scan keeps the invariant that every processed entry stores an
alarm carrying the key it is filed under. -/
theorem scanFold_done_fields (now : DateTime) (key : Nat × Nat) :
    ∀ (l : List (String × Alarm)) (st : ScanState),
      (∀ e ∈ l, (Prod.snd e).alarm_id = Prod.fst e) →
      (∀ e ∈ st.done, (Prod.snd e).alarm_id = Prod.fst e) →
      ∀ e ∈ (l.foldl (scanEntry now key) st).done,
        (Prod.snd e).alarm_id = Prod.fst e := by
  intro l
  induction l with
  | nil =>
      intro st hf hinv
      simpa using hinv
  | cons e rest ih =>
      intro st hf hinv
      refine ih _ (fun x hx => hf x (by simp [hx])) ?_
      obtain ⟨w, hw, hcases⟩ := scanEntry_done_shape now key st e
      rw [hw]
      intro x hx
      rcases List.mem_append.mp hx with hx2 | hx2
      · exact hinv x hx2
      · have hxe : x = (e.1, w) := by simpa using hx2
        subst hxe
        have hfe : (Prod.snd e).alarm_id = Prod.fst e := hf e (by simp)
        have hwid : w.alarm_id = (Prod.snd e).alarm_id := by
          rcases hcases with rfl | rfl
          · exact should_trigger_alarm_id e.2 now
          · simp [Alarm.disable, should_trigger_alarm_id]
        simpa using hwid.trans hfe

/-- A cache entry holding the current key survives a whole scan. -/
theorem scanFold_cache_stable (now : DateTime) (key : Nat × Nat) :
    ∀ (l : List (String × Alarm)) (st : ScanState) (j : String),
      dictGet st.cache j = some key →
      dictGet ((l.foldl (scanEntry now key) st).cache) j = some key := by
  intro l
  induction l with
  | nil => intro st j h; simpa using h
  | cons e rest ih =>
      intro st j h
      exact ih _ j (scanEntry_cache_stable now key st e j h)

/-- Every alarm returned by a sequence of scan calls run back to back:
each call is check_and_trigger_alarms at the next instant, on the manager
state the previous call left behind. -/
def scanResults (m : AlarmManager) : List DateTime → List Alarm
  | [] => []
  | d :: rest =>
      (m.check_and_trigger_alarms d).1 ++
        scanResults (m.check_and_trigger_alarms d).2 rest

/-- As long as the last-triggered cache holds the current minute key for
an id, no scan of a whole sequence of further calls within that minute
returns an alarm with that id. -/
theorem scanResults_no_retrigger (key : Nat × Nat) (j : String) :
    ∀ (nows : List DateTime) (m1 : AlarmManager),
      (∀ d ∈ nows, cacheKey d = key) →
      (∀ e ∈ m1.alarms, (Prod.snd e).alarm_id = Prod.fst e) →
      dictGet m1.last_triggered_minute j = some key →
      ∀ b ∈ scanResults m1 nows, b.alarm_id ≠ j := by
  intro nows
  induction nows with
  | nil =>
      intro m1 hk hf hc b hb
      simp [scanResults] at hb
  | cons d rest ih =>
      intro m1 hk hf hc b hb
      have hkd : cacheKey d = key := hk d (by simp)
      rcases List.mem_append.mp hb with hb2 | hb2
      · refine scanFold_no_retrigger d (cacheKey d) m1.alarms
          ⟨[], m1.last_triggered_minute, m1.actively_sounding_alarm_ids, []⟩
          j hf ?_ (by intro x hx; exact absurd hx (List.not_mem_nil x)) b hb2
        rw [hkd]
        exact hc
      · refine ih (m1.check_and_trigger_alarms d).2
          (fun x hx => hk x (by simp [hx])) ?_ ?_ b hb2
        · exact scanFold_done_fields d (cacheKey d) m1.alarms
            ⟨[], m1.last_triggered_minute, m1.actively_sounding_alarm_ids, []⟩
            hf (by intro x hx; exact absurd hx (List.not_mem_nil x))
        · have hstable := scanFold_cache_stable d (cacheKey d) m1.alarms
            ⟨[], m1.last_triggered_minute, m1.actively_sounding_alarm_ids, []⟩
            j (by rw [hkd]; exact hc)
          exact hstable.trans (congrArg some hkd)

/-- C3: an alarm fires at most once per qualifying minute.  In a manager
whose entries are filed under their own alarm id, if a scan returns an
alarm (not snoozing), then no scan of any back-to-back sequence of
further calls on the evolving state, each at an instant with the same
hour and minute, returns an alarm with that id. -/
theorem C3_scan_dedup (m : AlarmManager) (now : DateTime)
    (hfields : ∀ e ∈ m.alarms, (Prod.snd e).alarm_id = Prod.fst e)
    (a : Alarm) (ha : a ∈ (m.check_and_trigger_alarms now).1)
    (_hns : a.is_snoozing = false)
    (nows : List DateTime)
    (hkeys : ∀ d ∈ nows, cacheKey d = cacheKey now) :
    ∀ b ∈ scanResults (m.check_and_trigger_alarms now).2 nows,
      b.alarm_id ≠ a.alarm_id := by
  have hcache := scanFold_triggered_cache now (cacheKey now) m.alarms
    ⟨[], m.last_triggered_minute, m.actively_sounding_alarm_ids, []⟩
    hfields (by intro b hb; exact absurd hb (List.not_mem_nil b)) a ha
  have hf1 := scanFold_done_fields now (cacheKey now) m.alarms
    ⟨[], m.last_triggered_minute, m.actively_sounding_alarm_ids, []⟩
    hfields (by intro x hx; exact absurd hx (List.not_mem_nil x))
  exact scanResults_no_retrigger (cacheKey now) a.alarm_id nows
    (m.check_and_trigger_alarms now).2 hkeys hf1 hcache

/-- A manager with the one-time 07:00 alarm for the C3 witness. -/
def c3Mgr : AlarmManager :=
  { alarms := [("a", c1Alarm)], last_triggered_minute := [],
    actively_sounding_alarm_ids := [], stored := FileState.missing }

/-- C3 witness: the alarm returned at 07:00:00 is returned by none of the
three further scans at 07:00:20, 07:00:40 and 07:00:59 on the evolving
state. -/
theorem C3_witness :
    (scanResults (c3Mgr.check_and_trigger_alarms ⟨25200⟩).2
      [⟨25220⟩, ⟨25240⟩, ⟨25259⟩]).all
      (fun b => b.alarm_id != c1Alarm.alarm_id) = true := by
  have h := C3_scan_dedup c3Mgr ⟨25200⟩ (by decide) c1Alarm (by decide)
    (by decide) [⟨25220⟩, ⟨25240⟩, ⟨25259⟩] (by decide)
  rw [List.all_eq_true]
  intro b hb
  simpa using h b hb

end WakeUpAI
